import Mathlib

/-!
Verification of the storyboard-to-video timeline playback and capture engine
(`src/app/page.tsx`): timeline building, elapsed-time-to-frame mapping, the
cooperative playback tick loop, capture-session entry behaviour, and the
slide-list editing operations.

Numbers: slide durations and wall-clock times are JavaScript numbers, modelled
as rationals; millisecond durations are integers.  `Math.round x` is modelled
as `Int.floor (x + 1/2)`, which matches JavaScript's round-half-toward-positive
semantics on all finite inputs.
-/

namespace Storyboard

/-- The `Slide` record (page.tsx lines 5-11). -/
structure Slide where
  id : String
  title : String
  body : String
  background : String
  duration : ℚ
deriving DecidableEq, Repr

/-- The `TimelineSegment` record (page.tsx lines 13-16). -/
structure Segment where
  id : String
  durationMs : ℤ
deriving DecidableEq, Repr

/-- The timeline value produced by the `useMemo` builder (page.tsx lines 44-54). -/
structure Timeline where
  segments : List Segment
  totalDurationMs : ℤ
deriving DecidableEq, Repr

/-- JavaScript `Math.round`: round half toward positive infinity. -/
def roundJs (x : ℚ) : ℤ :=
  Int.floor (x + 1 / 2)

/-- One slide's segment: `{ id: slide.id, durationMs: Math.max(1, Math.round(slide.duration * 1000)) }`
(page.tsx lines 45-48). -/
def slideSegment (s : Slide) : Segment :=
  { id := s.id, durationMs := max 1 (roundJs (s.duration * 1000)) }

/-- The Timeline Builder (page.tsx lines 44-54): one segment per slide in order,
`totalDurationMs = Math.max(sum of segment durations, 1)`. -/
def timelineBuild (slides : List Slide) : Timeline :=
  let segments := slides.map slideSegment
  let total := (segments.map Segment.durationMs).sum
  { segments := segments, totalDurationMs := max total 1 }

/-- The segment-selection loop of `drawFrame` (page.tsx lines 106-118): starting
from the clamped remaining time, break at index `i` as soon as
`remaining <= segments[i].durationMs` or `i` is the last index, else subtract
the segment's duration and continue.  Returns the chosen index together with the
remaining time at the break. -/
def findActive : List Segment → ℚ → ℕ × ℚ
  | [], r => (0, r)
  | s :: rest, r =>
    if rest.isEmpty then (0, r)
    else if r ≤ (s.durationMs : ℚ) then (0, r)
    else
      let p := findActive rest (r - (s.durationMs : ℚ))
      (p.1 + 1, p.2)

/-- Sum of the durations of the first `i` segments, as a rational. -/
def prefixDur (segs : List Segment) (i : ℕ) : ℚ :=
  ((segs.take i).map (fun s => (s.durationMs : ℚ))).sum

/-- Placeholder segment used only to state `List.getD` lookups; the claims
about `frameMap` all assume a non-empty segment list, where the lookup index is
in range and the placeholder is never the result. -/
def defaultSeg : Segment :=
  { id := "", durationMs := 0 }

/-- The Frame Mapper core of `drawFrame` (page.tsx lines 105-121):
clamp `elapsedMs` with `Math.max(0, Math.min(elapsedMs, totalDurationMs - 1))`,
walk the segments, and return `(activeIndex, progress)` where
`progress = durationMs == 0 ? 0 : remaining / durationMs`. -/
def frameMap (tl : Timeline) (elapsedMs : ℚ) : ℕ × ℚ :=
  let clamped := max 0 (min elapsedMs ((tl.totalDurationMs : ℚ) - 1))
  let p := findActive tl.segments clamped
  let seg := tl.segments.getD p.1 defaultSeg
  (p.1, if seg.durationMs = 0 then 0 else p.2 / (seg.durationMs : ℚ))

/-! ### Helper lemmas for the timeline builder and frame mapper -/

lemma prefixDur_zero (segs : List Segment) : prefixDur segs 0 = 0 := by
  simp [prefixDur]

lemma prefixDur_cons_succ (s : Segment) (rest : List Segment) (i : ℕ) :
    prefixDur (s :: rest) (i + 1) = (s.durationMs : ℚ) + prefixDur rest i := by
  simp [prefixDur, List.take_succ_cons]

lemma one_le_sum_of_one_le {l : List ℤ} (h : ∀ x ∈ l, (1 : ℤ) ≤ x) (hn : l ≠ []) :
    (1 : ℤ) ≤ l.sum := by
  obtain ⟨a, t, rfl⟩ := List.exists_cons_of_ne_nil hn
  have ht : (0 : ℤ) ≤ t.sum := by
    refine List.sum_nonneg ?_
    intro x hx
    exact le_trans (by norm_num) (h x (by simp [hx]))
  have ha := h a (by simp)
  simp only [List.sum_cons]
  omega

lemma segDur_one_le (slides : List Slide) :
    ∀ s ∈ (timelineBuild slides).segments, (1 : ℤ) ≤ s.durationMs := by
  intro s hs
  simp only [timelineBuild, List.mem_map] at hs
  obtain ⟨sl, _, rfl⟩ := hs
  simp [slideSegment]

lemma timelineBuild_total_eq_sum {slides : List Slide} (h : slides ≠ []) :
    (timelineBuild slides).totalDurationMs =
      (((timelineBuild slides).segments.map Segment.durationMs).sum) := by
  have hne : (timelineBuild slides).segments ≠ [] := by
    simp [timelineBuild, h]
  have h1 : (1 : ℤ) ≤ ((timelineBuild slides).segments.map Segment.durationMs).sum := by
    refine one_le_sum_of_one_le ?_ (by simp [hne])
    intro x hx
    simp only [List.mem_map] at hx
    obtain ⟨s, hs, rfl⟩ := hx
    exact segDur_one_le slides s hs
  simp only [timelineBuild] at h1 ⊢
  omega

lemma findActive_spec_aux (segs : List Segment) (r : ℚ) (h : segs ≠ []) :
    (findActive segs r).1 < segs.length ∧
    (findActive segs r).2 = r - prefixDur segs (findActive segs r).1 ∧
    (∀ j, j < (findActive segs r).1 →
      ((segs.getD j defaultSeg).durationMs : ℚ) < r - prefixDur segs j) ∧
    (r - prefixDur segs (findActive segs r).1 ≤
        ((segs.getD (findActive segs r).1 defaultSeg).durationMs : ℚ) ∨
      (findActive segs r).1 = segs.length - 1) := by
  induction segs generalizing r with
  | nil => cases h rfl
  | cons s rest ih =>
    by_cases hrest : rest = []
    · subst hrest
      refine ⟨by simp [findActive], by simp [findActive, prefixDur_zero], ?_, ?_⟩
      · intro j hj
        simp [findActive] at hj
      · right
        simp [findActive]
    · have hre : rest.isEmpty = false := by
        simpa [List.isEmpty_iff] using hrest
      by_cases hle : r ≤ (s.durationMs : ℚ)
      · have hfa : findActive (s :: rest) r = (0, r) := by
          simp [findActive, hre, hle]
        refine ⟨by simp [hfa], by simp [hfa, prefixDur_zero], ?_, ?_⟩
        · intro j hj
          simp [hfa] at hj
        · left
          simpa [hfa, prefixDur_zero] using hle
      · have hfa : findActive (s :: rest) r =
            ((findActive rest (r - (s.durationMs : ℚ))).1 + 1,
             (findActive rest (r - (s.durationMs : ℚ))).2) := by
          simp [findActive, hre, hle]
        obtain ⟨ih1, ih2, ih3, ih4⟩ := ih (r - (s.durationMs : ℚ)) hrest
        refine ⟨?_, ?_, ?_, ?_⟩
        · simp only [hfa, List.length_cons]
          omega
        · simp only [hfa, prefixDur_cons_succ]
          rw [ih2]
          ring
        · intro j hj
          match j with
          | 0 =>
            simp only [List.getD_cons_zero, prefixDur_zero]
            push_neg at hle
            linarith
          | Nat.succ j' =>
            simp only [hfa] at hj
            have hj' : j' < (findActive rest (r - (s.durationMs : ℚ))).1 := by omega
            have := ih3 j' hj'
            simp only [List.getD_cons_succ, prefixDur_cons_succ]
            linarith
        · rcases ih4 with h4 | h4
          · left
            simp only [hfa, List.getD_cons_succ, prefixDur_cons_succ]
            linarith
          · right
            have hlen : 1 ≤ rest.length := by
              cases rest with
              | nil => cases hrest rfl
              | cons a t => simp
            simp only [hfa, List.length_cons]
            omega

/-! ### Claim theorems C1 and C2 -/

/-- C1: the Timeline Builder produces one segment per slide in presentation
order with `durationMs = max(1, round(slide.duration * 1000))`,
`totalDurationMs = max(1, sum of segment durations)`, and for every non-empty
slide list `totalDurationMs` equals the sum of the per-segment durations held
in the built Timeline. -/
theorem timelineBuild_spec (slides : List Slide) :
    (timelineBuild slides).segments.length = slides.length ∧
    (∀ i : ℕ, (timelineBuild slides).segments[i]? =
      (slides[i]?).map (fun s =>
        { id := s.id, durationMs := max 1 (roundJs (s.duration * 1000)) })) ∧
    (timelineBuild slides).totalDurationMs =
      max (((timelineBuild slides).segments.map Segment.durationMs).sum) 1 ∧
    (slides ≠ [] →
      (timelineBuild slides).totalDurationMs =
        ((timelineBuild slides).segments.map Segment.durationMs).sum) := by
  refine ⟨by simp [timelineBuild], ?_, by simp [timelineBuild], ?_⟩
  · intro i
    simp only [timelineBuild, List.getElem?_map]
    cases slides[i]? <;> simp [slideSegment]
  · intro h
    exact timelineBuild_total_eq_sum h

/-- Witness for C1 at the concrete slide list of the spec's scenario
(`[{duration:4},{duration:2}]`). -/
theorem timelineBuild_spec_witness :
    ([⟨"a", "", "", "", 4⟩, ⟨"b", "", "", "", 2⟩] : List Slide) ≠ [] ∧
    (timelineBuild [⟨"a", "", "", "", 4⟩, ⟨"b", "", "", "", 2⟩]).totalDurationMs =
      ((timelineBuild [⟨"a", "", "", "", 4⟩,
        ⟨"b", "", "", "", 2⟩]).segments.map Segment.durationMs).sum := by
  refine ⟨by simp, ?_⟩
  exact (timelineBuild_spec [⟨"a", "", "", "", 4⟩, ⟨"b", "", "", "", 2⟩]).2.2.2 (by simp)

/-- C2: for every timeline with at least one segment and every `elapsedMs`,
the Frame Mapper clamps `elapsedMs` into `[0, totalDurationMs - 1]`, walks the
segments subtracting consumed durations, and selects the first segment whose
duration is at least the remaining time (falling back to the last segment);
the returned progress is remaining/duration (0 for a zero-duration segment),
so on exact boundary equality the earlier segment is selected with progress 1. -/
theorem frameMap_spec (tl : Timeline) (e : ℚ) (h : tl.segments ≠ []) :
    (frameMap tl e).1 < tl.segments.length ∧
    (∀ j, j < (frameMap tl e).1 →
      ((tl.segments.getD j defaultSeg).durationMs : ℚ) <
        max 0 (min e ((tl.totalDurationMs : ℚ) - 1)) - prefixDur tl.segments j) ∧
    (max 0 (min e ((tl.totalDurationMs : ℚ) - 1)) -
        prefixDur tl.segments (frameMap tl e).1 ≤
        ((tl.segments.getD (frameMap tl e).1 defaultSeg).durationMs : ℚ) ∨
      (frameMap tl e).1 = tl.segments.length - 1) ∧
    ((frameMap tl e).2 =
      if (tl.segments.getD (frameMap tl e).1 defaultSeg).durationMs = 0 then 0
      else (max 0 (min e ((tl.totalDurationMs : ℚ) - 1)) -
          prefixDur tl.segments (frameMap tl e).1) /
        ((tl.segments.getD (frameMap tl e).1 defaultSeg).durationMs : ℚ)) ∧
    ((max 0 (min e ((tl.totalDurationMs : ℚ) - 1)) -
          prefixDur tl.segments (frameMap tl e).1 =
        ((tl.segments.getD (frameMap tl e).1 defaultSeg).durationMs : ℚ) ∧
      (tl.segments.getD (frameMap tl e).1 defaultSeg).durationMs ≠ 0) →
      (frameMap tl e).2 = 1) := by
  obtain ⟨h1, h2, h3, h4⟩ :=
    findActive_spec_aux tl.segments (max 0 (min e ((tl.totalDurationMs : ℚ) - 1))) h
  have hfst : (frameMap tl e).1 =
      (findActive tl.segments (max 0 (min e ((tl.totalDurationMs : ℚ) - 1)))).1 := rfl
  have hsnd : (frameMap tl e).2 =
      if (tl.segments.getD (frameMap tl e).1 defaultSeg).durationMs = 0 then 0
      else (findActive tl.segments (max 0 (min e ((tl.totalDurationMs : ℚ) - 1)))).2 /
        ((tl.segments.getD (frameMap tl e).1 defaultSeg).durationMs : ℚ) := rfl
  refine ⟨hfst ▸ h1, ?_, ?_, ?_, ?_⟩
  · intro j hj
    exact h3 j (hfst ▸ hj)
  · rw [hfst]
    exact h4
  · rw [hsnd, hfst, h2]
  · intro ⟨heq, hne⟩
    have hne' : ((tl.segments.getD (frameMap tl e).1 defaultSeg).durationMs : ℚ) ≠ 0 := by
      exact_mod_cast hne
    rw [hsnd]
    simp only [hne, if_false]
    rw [hfst] at heq hne' ⊢
    rw [h2, heq, div_self hne']

/-- Witness for C2 at the spec's scenario timeline
(`[4000ms, 2000ms]`, elapsed 5000). -/
theorem frameMap_spec_witness :
    (frameMap (timelineBuild [⟨"a", "", "", "", 4⟩, ⟨"b", "", "", "", 2⟩]) 5000).1 <
      (timelineBuild [⟨"a", "", "", "", 4⟩, ⟨"b", "", "", "", 2⟩]).segments.length :=
  (frameMap_spec (timelineBuild [⟨"a", "", "", "", 4⟩, ⟨"b", "", "", "", 2⟩]) 5000
    (by simp [timelineBuild])).1

/-! ### C3: mapping `totalDurationMs - 1` and the last segment -/

lemma getLast_getD_mem {l : List Segment} (h : l ≠ []) :
    l.getLast?.getD defaultSeg ∈ l := by
  rw [List.getLast?_eq_getLast l h]
  simp only [Option.getD_some]
  exact List.getLast_mem h

lemma findActive_total (segs : List Segment) (r : ℚ) (h : segs ≠ [])
    (hd : ∀ s ∈ segs, (1 : ℤ) ≤ s.durationMs)
    (hl : segs.length = 1 ∨ 2 ≤ (segs.getLast?.getD defaultSeg).durationMs)
    (hr : r = (segs.map (fun s => (s.durationMs : ℚ))).sum - 1) :
    (findActive segs r).1 = segs.length - 1 := by
  induction segs generalizing r with
  | nil => cases h rfl
  | cons s rest ih =>
    by_cases hrest : rest = []
    · subst hrest
      simp [findActive]
    · have hre : rest.isEmpty = false := by
        simpa [List.isEmpty_iff] using hrest
      have hlast : (s :: rest).getLast? = rest.getLast? := by
        cases rest with
        | nil => cases hrest rfl
        | cons a t => simp [List.getLast?_cons_cons]
      have h2 : (2 : ℤ) ≤ (rest.getLast?.getD defaultSeg).durationMs := by
        rcases hl with h1 | h1
        · exfalso
          cases rest with
          | nil => exact hrest rfl
          | cons a t => simp at h1
        · rw [hlast] at h1
          exact h1
      have hnn : ∀ x ∈ rest.map (fun s => ((s.durationMs : ℤ) : ℚ)), (0 : ℚ) ≤ x := by
        intro x hx
        simp only [List.mem_map] at hx
        obtain ⟨t, ht, rfl⟩ := hx
        have h1 := hd t (by simp [ht])
        have : (0 : ℤ) ≤ t.durationMs := by omega
        exact_mod_cast this
      have hsum : (2 : ℚ) ≤ (rest.map (fun s => (s.durationMs : ℚ))).sum := by
        have hle : (((rest.getLast?.getD defaultSeg).durationMs : ℤ) : ℚ) ≤
            (rest.map (fun s => (s.durationMs : ℚ))).sum :=
          List.single_le_sum hnn _ (List.mem_map_of_mem _ (getLast_getD_mem hrest))
        have hc2 : ((2 : ℤ) : ℚ) ≤ (((rest.getLast?.getD defaultSeg).durationMs : ℤ) : ℚ) := by
          exact_mod_cast h2
        calc (2 : ℚ) = ((2 : ℤ) : ℚ) := by norm_num
          _ ≤ _ := le_trans hc2 hle
      have hrr : r = (s.durationMs : ℚ) + (rest.map (fun s => (s.durationMs : ℚ))).sum - 1 := by
        simpa [List.map_cons, List.sum_cons] using hr
      have hgt : ¬ (r ≤ (s.durationMs : ℚ)) := by
        rw [hrr]
        push_neg
        linarith
      have hstep : findActive (s :: rest) r =
          ((findActive rest (r - (s.durationMs : ℚ))).1 + 1,
           (findActive rest (r - (s.durationMs : ℚ))).2) := by
        simp [findActive, hre, hgt]
      have hih : (findActive rest (r - (s.durationMs : ℚ))).1 = rest.length - 1 := by
        refine ih (r - (s.durationMs : ℚ)) hrest
          (fun t ht => hd t (by simp [ht])) (Or.inr h2) ?_
        rw [hrr]
        ring
      have hlen : 1 ≤ rest.length := by
        cases rest with
        | nil => cases hrest rfl
        | cons a t => simp
      rw [hstep]
      simp only [List.length_cons]
      omega

/-- C3 counterexample: for the timeline built from slides with durations 1s and
0.001s (segments `[1000ms, 1ms]`, total 1001ms), mapping elapsed time
`totalDurationMs - 1 = 1000` yields segment index 0, not the last index 1:
the tie-break rule assigns the boundary instant to the earlier segment. -/
theorem frameMap_last_counterexample :
    (timelineBuild [⟨"a", "", "", "", 1⟩, ⟨"b", "", "", "", 1 / 1000⟩]).segments.length = 2 ∧
    (frameMap (timelineBuild [⟨"a", "", "", "", 1⟩, ⟨"b", "", "", "", 1 / 1000⟩])
        (((timelineBuild
          [⟨"a", "", "", "", 1⟩, ⟨"b", "", "", "", 1 / 1000⟩]).totalDurationMs : ℚ) - 1)).1 ≠
      (timelineBuild [⟨"a", "", "", "", 1⟩, ⟨"b", "", "", "", 1 / 1000⟩]).segments.length - 1 := by
  constructor
  · norm_num [timelineBuild]
  · norm_num [frameMap, findActive, timelineBuild, slideSegment, roundJs, defaultSeg]

/-- C3 amended: for every timeline built from a non-empty slide list, if the
timeline has a single segment or its last segment's `durationMs` is at least 2
(true of every timeline the UI can produce, since the editor clamps slide
durations to at least one second), mapping elapsed time `totalDurationMs - 1`
yields the index of the last segment. -/
theorem frameMap_last_amended (slides : List Slide) (h : slides ≠ [])
    (h2 : (timelineBuild slides).segments.length = 1 ∨
      2 ≤ ((timelineBuild slides).segments.getLast?.getD defaultSeg).durationMs) :
    (frameMap (timelineBuild slides)
        (((timelineBuild slides).totalDurationMs : ℚ) - 1)).1 =
      (timelineBuild slides).segments.length - 1 := by
  have hne : (timelineBuild slides).segments ≠ [] := by
    simp [timelineBuild, h]
  have htot := timelineBuild_total_eq_sum h
  have h1 : (1 : ℤ) ≤ ((timelineBuild slides).segments.map Segment.durationMs).sum := by
    refine one_le_sum_of_one_le ?_ (by simp [hne])
    intro x hx
    simp only [List.mem_map] at hx
    obtain ⟨s, hs, rfl⟩ := hx
    exact segDur_one_le slides s hs
  have hcast : (((timelineBuild slides).totalDurationMs : ℤ) : ℚ) =
      ((timelineBuild slides).segments.map (fun s => (s.durationMs : ℚ))).sum := by
    rw [htot, Int.cast_list_sum, List.map_map]
    rfl
  have hclamp : max 0 (min (((timelineBuild slides).totalDurationMs : ℚ) - 1)
        (((timelineBuild slides).totalDurationMs : ℚ) - 1)) =
      ((timelineBuild slides).totalDurationMs : ℚ) - 1 := by
    rw [min_self]
    refine max_eq_right ?_
    have : (1 : ℚ) ≤ (((timelineBuild slides).totalDurationMs : ℤ) : ℚ) := by
      rw [htot]
      exact_mod_cast h1
    linarith
  have hfst : (frameMap (timelineBuild slides)
      (((timelineBuild slides).totalDurationMs : ℚ) - 1)).1 =
      (findActive (timelineBuild slides).segments
        (((timelineBuild slides).totalDurationMs : ℚ) - 1)).1 := by
    simp only [frameMap, hclamp]
  rw [hfst]
  refine findActive_total _ _ hne (segDur_one_le slides) h2 ?_
  rw [hcast]

/-- Witness for the amended C3 at the spec's scenario timeline
(`[4000ms, 2000ms]`, total 6000ms, last segment well above 2ms). -/
theorem frameMap_last_amended_witness :
    (frameMap (timelineBuild [⟨"a", "", "", "", 4⟩, ⟨"b", "", "", "", 2⟩])
        (((timelineBuild [⟨"a", "", "", "", 4⟩,
          ⟨"b", "", "", "", 2⟩]).totalDurationMs : ℚ) - 1)).1 =
      (timelineBuild [⟨"a", "", "", "", 4⟩, ⟨"b", "", "", "", 2⟩]).segments.length - 1 := by
  refine frameMap_last_amended [⟨"a", "", "", "", 4⟩, ⟨"b", "", "", "", 2⟩] (by simp) ?_
  right
  norm_num [timelineBuild, slideSegment, roundJs, defaultSeg]

/-! ### Playback loop: `runTimeline`'s tick and `stopPlayback`
(page.tsx lines 127-173) -/

/-- The mutable state a playback tick can see and change: the loop's start
timestamp, the `playingRef` liveness flag, and the `isPlaying` React flag. -/
structure LoopState where
  start : ℚ
  playingRef : Bool
  isPlaying : Bool
deriving DecidableEq, Repr

/-- What one invocation of the tick does: the updated state, the `drawFrame`
calls it made (listed by elapsed-time argument), whether it scheduled a next
step via `requestAnimationFrame`, and whether it invoked `onComplete`. -/
structure TickResult where
  state : LoopState
  rendered : List ℚ
  scheduledNext : Bool
  completedFired : Bool
deriving DecidableEq, Repr

/-- One step of the playback loop (page.tsx lines 148-167): return immediately
if the liveness flag is down; otherwise compute `elapsed = now - start`; if
`elapsed >= totalDurationMs`, render the final frame at `totalDurationMs - 1`
and either restart from `now` (looping) or clear the flags and fire
`onComplete` (one-shot); otherwise render the frame at `elapsed` and schedule
the next step. -/
def tick (totalDurationMs : ℤ) (loop : Bool) (now : ℚ) (s : LoopState) : TickResult :=
  if s.playingRef = false then
    { state := s, rendered := [], scheduledNext := false, completedFired := false }
  else
    let elapsed := now - s.start
    if (totalDurationMs : ℚ) ≤ elapsed then
      if loop then
        { state := { s with start := now },
          rendered := [(totalDurationMs : ℚ) - 1],
          scheduledNext := true, completedFired := false }
      else
        { state := { s with playingRef := false, isPlaying := false },
          rendered := [(totalDurationMs : ℚ) - 1],
          scheduledNext := false, completedFired := true }
    else
      { state := s, rendered := [elapsed], scheduledNext := true, completedFired := false }

/-- `stopPlayback` (page.tsx lines 127-133): lower the liveness flag and clear
`isPlaying` (it also cancels the pending animation frame; any step that still
fires afterwards is covered by quantifying over arbitrary later ticks). -/
def stopPlayback (s : LoopState) : LoopState :=
  { s with playingRef := false, isPlaying := false }

/-- Run a sequence of tick invocations, threading the state; returns the final
state, every frame rendered, and whether any invocation fired `onComplete`. -/
def runTicks (totalDurationMs : ℤ) (loop : Bool) (s : LoopState) :
    List ℚ → LoopState × List ℚ × Bool
  | [] => (s, [], false)
  | n :: ns =>
    let r := tick totalDurationMs loop n s
    let rest := runTicks totalDurationMs loop r.state ns
    (rest.1, r.rendered ++ rest.2.1, r.completedFired || rest.2.2)

/-- C4: in every step of the playback loop with the liveness flag up, if
`elapsed = now - start >= totalDurationMs` then the final frame is rendered at
`totalDurationMs - 1` exactly once and then, in looping mode, `start` is reset
to `now` and the next step is scheduled, while in one-shot mode no further step
is scheduled, the running flags are cleared and `onComplete` is invoked; if
`elapsed < totalDurationMs`, the frame at `elapsed` is rendered and the next
step is scheduled. -/
theorem tick_step_spec (totalDurationMs : ℤ) (loop : Bool) (now : ℚ) (s : LoopState)
    (h : s.playingRef = true) :
    ((totalDurationMs : ℚ) ≤ now - s.start →
      (tick totalDurationMs loop now s).rendered = [(totalDurationMs : ℚ) - 1] ∧
      (loop = true →
        (tick totalDurationMs loop now s).state.start = now ∧
        (tick totalDurationMs loop now s).scheduledNext = true ∧
        (tick totalDurationMs loop now s).completedFired = false) ∧
      (loop = false →
        (tick totalDurationMs loop now s).scheduledNext = false ∧
        (tick totalDurationMs loop now s).state.playingRef = false ∧
        (tick totalDurationMs loop now s).state.isPlaying = false ∧
        (tick totalDurationMs loop now s).completedFired = true)) ∧
    (now - s.start < (totalDurationMs : ℚ) →
      (tick totalDurationMs loop now s).rendered = [now - s.start] ∧
      (tick totalDurationMs loop now s).scheduledNext = true ∧
      (tick totalDurationMs loop now s).completedFired = false ∧
      (tick totalDurationMs loop now s).state = s) := by
  constructor
  · intro he
    refine ⟨?_, ?_, ?_⟩
    · cases loop <;> simp [tick, h, he]
    · intro hl
      subst hl
      simp [tick, h, he]
    · intro hl
      subst hl
      simp [tick, h, he]
  · intro he
    have hne : ¬ ((totalDurationMs : ℚ) ≤ now - s.start) := not_le.mpr he
    simp [tick, h, hne]

/-- Witness for C4: a one-shot loop of total duration 1000ms, tick fired at
elapsed 2000ms, fires `onComplete` and stops. -/
theorem tick_step_spec_witness :
    (tick 1000 false 2000 { start := 0, playingRef := true, isPlaying := true }).completedFired =
      true ∧
    (tick 1000 false 2000 { start := 0, playingRef := true, isPlaying := true }).rendered =
      [(999 : ℚ)] := by
  have h := (tick_step_spec 1000 false 2000
    { start := 0, playingRef := true, isPlaying := true } rfl).1 (by norm_num)
  refine ⟨(h.2.2 rfl).2.2.2, ?_⟩
  rw [h.1]
  norm_num

/-- C5: once the liveness flag `playingRef` is lowered (as `stopPlayback`
does), any step that still fires checks the flag at its top and returns
immediately: it renders no frame, schedules no further step, invokes no
`onComplete`, and leaves the state unchanged — and so does every subsequent
step. -/
theorem cancelled_tick_noop (totalDurationMs : ℤ) (loop : Bool) (s : LoopState) :
    (∀ (now : ℚ) (st : LoopState), st.playingRef = false →
      tick totalDurationMs loop now st =
        { state := st, rendered := [], scheduledNext := false, completedFired := false }) ∧
    (stopPlayback s).playingRef = false ∧
    (stopPlayback s).isPlaying = false ∧
    (∀ nows : List ℚ,
      runTicks totalDurationMs loop (stopPlayback s) nows = (stopPlayback s, [], false)) := by
  have hdead : ∀ (now : ℚ) (st : LoopState), st.playingRef = false →
      tick totalDurationMs loop now st =
        { state := st, rendered := [], scheduledNext := false, completedFired := false } := by
    intro now st hst
    simp [tick, hst]
  refine ⟨hdead, rfl, rfl, ?_⟩
  intro nows
  induction nows with
  | nil => simp [runTicks]
  | cons n ns ih =>
    simp only [runTicks, hdead n (stopPlayback s) rfl, ih]
    simp

/-- Witness for C5: a cancelled state fed a concrete tick renders nothing and
fires nothing. -/
theorem cancelled_tick_noop_witness :
    tick 1000 true 5 { start := 0, playingRef := false, isPlaying := false } =
      { state := { start := 0, playingRef := false, isPlaying := false },
        rendered := [], scheduledNext := false, completedFired := false } :=
  (cancelled_tick_noop 1000 true
    { start := 0, playingRef := true, isPlaying := true }).1 5
    { start := 0, playingRef := false, isPlaying := false } rfl

/-! ### Capture session: `selectMimeType`, `renderVideo`, and the entry of
`runTimeline` (page.tsx lines 135-142, 238-250, 252-322) -/

/-- The host environment a capture start can observe: whether the canvas ref is
populated, whether `MediaRecorder` exists, what `MediaRecorder.isTypeSupported`
answers for each format (`none` models the probe throwing), and whether the
`new MediaRecorder(...)` constructor succeeds. -/
structure CaptureEnv where
  canvasReady : Bool
  hasMediaRecorder : Bool
  probe : String → Option Bool
  constructorOk : Bool

/-- The fixed format preference list (page.tsx line 242). -/
def mimeCandidates : List String :=
  ["video/webm;codecs=vp9", "video/webm;codecs=vp8", "video/webm"]

/-- `selectMimeType` (page.tsx lines 238-250): `undefined` when `MediaRecorder`
is absent, else the first candidate whose support probe returns true, where a
throwing probe counts as false (the `try/catch` around `isTypeSupported`). -/
def selectMimeType (env : CaptureEnv) : Option String :=
  if env.hasMediaRecorder = false then none
  else mimeCandidates.find? (fun c => (env.probe c).getD false)

/-- The component state touched synchronously by `runTimeline` and
`renderVideo`: React state (`slides`, `isPlaying`, `isRecording`,
`statusMessage`, `recordedUrl`) and refs (`playingRef`, the pending
animation-frame handle, `recorderRef`, `recordedChunksRef`, modelled by the
chunk sizes held). -/
structure AppState where
  slides : List Slide
  isPlaying : Bool
  isRecording : Bool
  statusMessage : Option String
  recordedUrl : Option String
  playingRef : Bool
  animationPending : Bool
  recorderSet : Bool
  recordedChunks : List ℕ
deriving DecidableEq, Repr

/-- Externally visible effects of one synchronous `renderVideo` call: whether a
capture stream was created, whether its tracks were stopped, whether and with
which mime-type argument a recorder was constructed (`some none` means
constructed without a format descriptor), whether `recorder.start` ran, the
`drawFrame` calls made, and whether a tick was scheduled. -/
structure CaptureEffects where
  streamCreated : Bool
  streamTracksStopped : Bool
  recorderConstructed : Option (Option String)
  recorderStarted : Bool
  framesDrawn : List ℚ
  scheduledTick : Bool
deriving DecidableEq, Repr

/-- The no-effects value: nothing created, stopped, constructed, drawn or
scheduled. -/
def noCaptureEffects : CaptureEffects :=
  { streamCreated := false, streamTracksStopped := false, recorderConstructed := none,
    recorderStarted := false, framesDrawn := [], scheduledTick := false }

/-- The synchronous body of `renderVideo` (page.tsx lines 252-322): silently
return on an empty slide list or while recording; report a missing canvas;
otherwise capture the stream, cancel the pending frame, construct the recorder
with the negotiated mime type and start recording and the drive loop — or, if
construction throws, report the failure, stop the stream's tracks and clear
every in-progress flag. -/
def renderVideo (env : CaptureEnv) (s : AppState) : AppState × CaptureEffects :=
  if s.slides.length = 0 ∨ s.isRecording = true then
    (s, noCaptureEffects)
  else if env.canvasReady = false then
    ({ s with statusMessage := some "Canvas preview is not ready." }, noCaptureEffects)
  else if env.constructorOk = true then
    ({ s with
        recordedChunks := [], recorderSet := true, isRecording := true,
        statusMessage := some "Rendering video...", playingRef := true,
        isPlaying := true, animationPending := true },
     { streamCreated := true, streamTracksStopped := false,
       recorderConstructed := some (selectMimeType env), recorderStarted := true,
       framesDrawn := [0], scheduledTick := true })
  else
    ({ s with
        recordedChunks := [],
        statusMessage := some "MediaRecorder is not supported in this browser.",
        playingRef := false, isPlaying := false, isRecording := false,
        animationPending := false },
     { streamCreated := true, streamTracksStopped := true,
       recorderConstructed := none, recorderStarted := false,
       framesDrawn := [], scheduledTick := false })

/-- Effects of the synchronous entry of `runTimeline`. -/
structure PlayEffects where
  framesDrawn : List ℚ
  scheduledTick : Bool
deriving DecidableEq, Repr

/-- The synchronous entry of `runTimeline` (page.tsx lines 135-147, 169-170):
silently return on an empty slide list; otherwise cancel any pending frame,
raise the flags, draw frame 0 and schedule the first tick. -/
def runTimelineStart (s : AppState) : AppState × PlayEffects :=
  if s.slides.length = 0 then
    (s, { framesDrawn := [], scheduledTick := false })
  else
    ({ s with playingRef := true, isPlaying := true, animationPending := true },
     { framesDrawn := [0], scheduledTick := true })

/-- A state with the initial-looking fields but an empty slide list. -/
def emptyState : AppState :=
  { slides := [], isPlaying := false, isRecording := false, statusMessage := none,
    recordedUrl := none, playingRef := false, animationPending := false,
    recorderSet := false, recordedChunks := [] }

/-- A fully capable host environment. -/
def fullEnv : CaptureEnv :=
  { canvasReady := true, hasMediaRecorder := true, probe := fun _ => some true,
    constructorOk := true }

/-! ### Claim theorems C6-C9 -/

/-- C6 counterexample: presenting the empty slide list to `runTimeline` or
`renderVideo` is a silent no-op — the state (including `statusMessage`, which
stays `none`) is returned unchanged, so the rejection is not surfaced as a
status message as the claim asserts. -/
theorem empty_slides_status_counterexample :
    emptyState.statusMessage = none ∧
    runTimelineStart emptyState =
      (emptyState, { framesDrawn := [], scheduledTick := false }) ∧
    renderVideo fullEnv emptyState = (emptyState, noCaptureEffects) ∧
    (runTimelineStart emptyState).1.statusMessage = none ∧
    (renderVideo fullEnv emptyState).1.statusMessage = none := by
  refine ⟨rfl, ?_, ?_, ?_, ?_⟩ <;> rfl

/-- C6 amended: presenting an empty slide list to playback (`runTimeline`) or
capture (`renderVideo`) is rejected non-fatally — the request becomes a no-op
that changes no state and produces no effects — but no status message is set;
the rejection is silent. -/
theorem empty_slides_noop_amended (env : CaptureEnv) (s : AppState)
    (h : s.slides = []) :
    runTimelineStart s = (s, { framesDrawn := [], scheduledTick := false }) ∧
    renderVideo env s = (s, noCaptureEffects) ∧
    (runTimelineStart s).1.statusMessage = s.statusMessage ∧
    (renderVideo env s).1.statusMessage = s.statusMessage := by
  have hl : s.slides.length = 0 := by simp [h]
  have h1 : runTimelineStart s = (s, { framesDrawn := [], scheduledTick := false }) := by
    simp [runTimelineStart, hl]
  have h2 : renderVideo env s = (s, noCaptureEffects) := by
    simp [renderVideo, hl]
  exact ⟨h1, h2, by rw [h1], by rw [h2]⟩

/-- Witness for the amended C6 at the concrete empty state. -/
theorem empty_slides_noop_amended_witness :
    runTimelineStart emptyState =
      (emptyState, { framesDrawn := [], scheduledTick := false }) :=
  (empty_slides_noop_amended fullEnv emptyState rfl).1

/-- C7: while a capture is in progress (`isRecording = true`), a second
`renderVideo` call returns immediately with the state unchanged and no
effects: no stream is created, no tracks are touched, no recorder is
constructed or started, nothing is drawn or scheduled, and the chunk buffer
and status are untouched. -/
theorem renderVideo_second_start_noop (env : CaptureEnv) (s : AppState)
    (h : s.isRecording = true) :
    renderVideo env s = (s, noCaptureEffects) := by
  simp [renderVideo, h]

/-- Witness for C7: a second start against a recording state is rejected. -/
theorem renderVideo_second_start_noop_witness :
    renderVideo fullEnv { emptyState with isRecording := true } =
      ({ emptyState with isRecording := true }, noCaptureEffects) :=
  renderVideo_second_start_noop fullEnv { emptyState with isRecording := true } rfl

/-- C8: format negotiation probes `vp9`, then `vp8`, then plain `webm`, in that
fixed order, choosing the first candidate reported supported; a throwing probe
behaves exactly like one answering false; and the recorder is constructed with
the negotiated format — in particular with no format descriptor when no
candidate is supported or `MediaRecorder` is absent. -/
theorem selectMimeType_spec :
    (∀ env : CaptureEnv,
      selectMimeType env =
        if env.hasMediaRecorder = false then none
        else if (env.probe "video/webm;codecs=vp9").getD false = true then
          some "video/webm;codecs=vp9"
        else if (env.probe "video/webm;codecs=vp8").getD false = true then
          some "video/webm;codecs=vp8"
        else if (env.probe "video/webm").getD false = true then
          some "video/webm"
        else none) ∧
    (∀ (env : CaptureEnv) (c : String),
      selectMimeType { env with probe := fun x => if x = c then none else env.probe x } =
        selectMimeType { env with probe := fun x => if x = c then some false else env.probe x }) ∧
    (∀ (env : CaptureEnv) (s : AppState),
      s.slides.length ≠ 0 → s.isRecording = false → env.canvasReady = true →
      env.constructorOk = true →
      (renderVideo env s).2.recorderConstructed = some (selectMimeType env) ∧
      (selectMimeType env = none →
        (renderVideo env s).2.recorderConstructed = some none)) := by
  refine ⟨?_, ?_, ?_⟩
  · intro env
    by_cases h0 : env.hasMediaRecorder = false
    · simp [selectMimeType, h0]
    · cases h1 : (env.probe "video/webm;codecs=vp9").getD false <;>
        cases h2 : (env.probe "video/webm;codecs=vp8").getD false <;>
        cases h3 : (env.probe "video/webm").getD false <;>
        simp [selectMimeType, mimeCandidates, List.find?, h0, h1, h2, h3]
  · intro env c
    have hp : (fun x => ((if x = c then none else env.probe x) : Option Bool).getD false) =
        (fun x => ((if x = c then some false else env.probe x) : Option Bool).getD false) := by
      funext x
      by_cases hx : x = c <;> simp [hx]
    simp only [selectMimeType, hp]
  · intro env s h1 h2 h3 h4
    have hne : s.slides ≠ [] := by
      intro hh
      exact h1 (by simp [hh])
    constructor
    · simp [renderVideo, hne, h2, h3, h4]
    · intro hmime
      simp [renderVideo, hne, h2, h3, h4, hmime]

/-- Witness for C8: in a fully capable environment the negotiation picks vp9
and the recorder is constructed with it. -/
theorem selectMimeType_spec_witness :
    (renderVideo fullEnv { emptyState with slides := [⟨"a", "", "", "", 4⟩] }).2.recorderConstructed =
      some (selectMimeType fullEnv) ∧
    selectMimeType fullEnv = some "video/webm;codecs=vp9" := by
  constructor
  · exact (selectMimeType_spec.2.2 fullEnv
      { emptyState with slides := [⟨"a", "", "", "", 4⟩] }
      (by simp [emptyState]) rfl rfl rfl).1
  · rfl

/-- C9: when encoder construction fails during `renderVideo` (slides present,
not already recording, canvas ready, constructor throws), the capture session
synchronously stops the captured stream's tracks, resets `playingRef`,
`isPlaying` and `isRecording` to false, reports the failure as a status
message, constructs and starts no recorder, and leaves the retained artifact
(`recordedUrl`) untouched. -/
theorem renderVideo_failure_cleanup (env : CaptureEnv) (s : AppState)
    (h1 : s.slides.length ≠ 0) (h2 : s.isRecording = false)
    (h3 : env.canvasReady = true) (h4 : env.constructorOk = false) :
    (renderVideo env s).2.streamCreated = true ∧
    (renderVideo env s).2.streamTracksStopped = true ∧
    (renderVideo env s).1.playingRef = false ∧
    (renderVideo env s).1.isPlaying = false ∧
    (renderVideo env s).1.isRecording = false ∧
    (renderVideo env s).1.statusMessage =
      some "MediaRecorder is not supported in this browser." ∧
    (renderVideo env s).2.recorderConstructed = none ∧
    (renderVideo env s).2.recorderStarted = false ∧
    (renderVideo env s).1.recordedUrl = s.recordedUrl := by
  have hne : s.slides ≠ [] := by
    intro hh
    exact h1 (by simp [hh])
  refine ⟨?_, ?_, ?_, ?_, ?_, ?_, ?_, ?_, ?_⟩ <;> simp [renderVideo, hne, h2, h3, h4]

/-- Witness for C9: a concrete failing construction is fully cleaned up. -/
theorem renderVideo_failure_cleanup_witness :
    (renderVideo { fullEnv with constructorOk := false }
      { emptyState with slides := [⟨"a", "", "", "", 4⟩] }).2.streamTracksStopped = true :=
  (renderVideo_failure_cleanup { fullEnv with constructorOk := false }
    { emptyState with slides := [⟨"a", "", "", "", 4⟩] }
    (by simp [emptyState]) rfl rfl rfl).2.1

/-! ### Slide-list editing operations (page.tsx lines 21-29, 200-224) -/

/-- `createSlide` (page.tsx lines 21-27).  In the browser the id is
`crypto.randomUUID()`; in a host without `crypto.randomUUID` it is the fallback
`slide-index`.  The generated id is passed in explicitly so both environments
are covered. -/
def createSlide (newId : String) (index : ℕ) : Slide :=
  { id := newId,
    title := "Slide " ++ toString (index + 1),
    body := "Describe your story here.",
    background := ["#5b21b6", "#1d4ed8", "#059669", "#dc2626"].getD (index % 4) "",
    duration := 4 }

/-- The deterministic id scheme `createSlide` falls back to when
`crypto.randomUUID` is unavailable (page.tsx line 22). -/
def fallbackId (index : ℕ) : String :=
  "slide-" ++ toString index

/-- `addSlide` (page.tsx lines 200-202): append a slide created at index
`prev.length`. -/
def addSlide (newId : String) (prev : List Slide) : List Slide :=
  prev ++ [createSlide newId prev.length]

/-- A partial patch of the editable slide fields, as every UI call site passes
to `updateSlide` (the UI never patches `id`). -/
structure SlidePatch where
  title : Option String
  body : Option String
  background : Option String
  duration : Option ℚ
deriving DecidableEq, Repr

/-- Spreading a patch over a slide, `{ ...slide, ...patch }`. -/
def applyPatch (p : SlidePatch) (s : Slide) : Slide :=
  { s with
      title := p.title.getD s.title,
      body := p.body.getD s.body,
      background := p.background.getD s.background,
      duration := p.duration.getD s.duration }

/-- `updateSlide` (page.tsx lines 204-206). -/
def updateSlide (targetId : String) (p : SlidePatch) (prev : List Slide) : List Slide :=
  prev.map (fun sl => if sl.id = targetId then applyPatch p sl else sl)

/-- `removeSlide` (page.tsx lines 208-210): a list of length at most 1 is
returned unchanged; otherwise every slide with the given id is dropped. -/
def removeSlide (targetId : String) (prev : List Slide) : List Slide :=
  if prev.length ≤ 1 then prev else prev.filter (fun sl => sl.id ≠ targetId)

/-- `moveSlide` (page.tsx lines 212-224): locate the slide by id, bail out when
it is absent or the target position is out of range, else splice it out and
back in at the target position. -/
def moveSlide (targetId : String) (dir : ℤ) (prev : List Slide) : List Slide :=
  match prev.findIdx? (fun sl => sl.id = targetId) with
  | none => prev
  | some index =>
    let target : ℤ := (index : ℤ) + dir
    if target < 0 ∨ (prev.length : ℤ) ≤ target then prev
    else
      match prev[index]? with
      | none => prev
      | some removed => (prev.eraseIdx index).insertIdx target.toNat removed

/-- `INITIAL_SLIDES` (page.tsx line 29) in a host without `crypto.randomUUID`,
where the ids are the deterministic fallback ids. -/
def initialSlidesFallback : List Slide :=
  [createSlide (fallbackId 0) 0, createSlide (fallbackId 1) 1]

/-- One editing operation as the UI can issue it.  `add` carries the id the
uuid generator produced; `addFallback` is `addSlide` in a host without
`crypto.randomUUID`, where the new id is `fallbackId` of the current length. -/
inductive SlideOp where
  | add (newId : String)
  | addFallback
  | update (targetId : String) (p : SlidePatch)
  | move (targetId : String) (dir : ℤ)
  | remove (targetId : String)
deriving DecidableEq, Repr

/-- Apply one editing operation to the slide list. -/
def applyOp : SlideOp → List Slide → List Slide
  | .add u, s => addSlide u s
  | .addFallback, s => addSlide (fallbackId s.length) s
  | .update i p, s => updateSlide i p s
  | .move i d, s => moveSlide i d s
  | .remove i, s => removeSlide i s

/-- Apply a sequence of editing operations in order. -/
def applyOps (ops : List SlideOp) (s : List Slide) : List Slide :=
  ops.foldl (fun st op => applyOp op st) s

/-- Whether an operation's freshly generated id (if any) is distinct from every
id currently in the list — the guarantee `crypto.randomUUID` provides. -/
def opFresh : SlideOp → List Slide → Bool
  | .add u, s => !decide (u ∈ s.map Slide.id)
  | .addFallback, s => !decide (fallbackId s.length ∈ s.map Slide.id)
  | _, _ => true

/-- Whether every `add` along a trace uses a fresh id. -/
def freshTrace : List SlideOp → List Slide → Bool
  | [], _ => true
  | op :: rest, s => opFresh op s && freshTrace rest (applyOp op s)

/-- All slide ids in the list are pairwise distinct. -/
def idsNodup (s : List Slide) : Prop :=
  (s.map Slide.id).Nodup

/-! ### Helper lemmas for the slide-list operations -/

lemma cons_eraseIdx_perm {α : Type} :
    ∀ (l : List α) (i : ℕ) (a : α), l[i]? = some a → (a :: l.eraseIdx i).Perm l := by
  intro l
  induction l with
  | nil =>
    intro i a h
    simp at h
  | cons b t ih =>
    intro i a h
    cases i with
    | zero =>
      simp only [List.getElem?_cons_zero, Option.some.injEq] at h
      subst h
      simp [List.eraseIdx]
    | succ j =>
      simp only [List.getElem?_cons_succ] at h
      have hperm := ih j a h
      have h1 : (a :: (b :: t).eraseIdx (j + 1)) = a :: b :: t.eraseIdx j := by
        simp [List.eraseIdx]
      rw [h1]
      exact (List.Perm.swap b a (t.eraseIdx j)).trans (hperm.cons b)

lemma insertIdx_perm {α : Type} :
    ∀ (n : ℕ) (a : α) (l : List α), n ≤ l.length → (l.insertIdx n a).Perm (a :: l) := by
  intro n
  induction n with
  | zero =>
    intro a l _
    simp [List.insertIdx_zero]
  | succ m ih =>
    intro a l h
    cases l with
    | nil => simp at h
    | cons b t =>
      rw [List.insertIdx_succ_cons]
      have ht := ih a t (by simpa using h)
      exact (ht.cons b).trans (List.Perm.swap a b t)

lemma moveSlide_perm (targetId : String) (dir : ℤ) (prev : List Slide) :
    (moveSlide targetId dir prev).Perm prev := by
  unfold moveSlide
  cases hf : prev.findIdx? (fun sl => sl.id = targetId) with
  | none => simp
  | some index =>
    simp only
    by_cases hb : ((index : ℤ) + dir < 0 ∨ (prev.length : ℤ) ≤ (index : ℤ) + dir)
    · simp [hb]
    · simp only [hb, if_false]
      cases hg : prev[index]? with
      | none => simp
      | some removed =>
        push_neg at hb
        obtain ⟨hb1, hb2⟩ := hb
        have hidx : index < prev.length := by
          by_contra hc
          push_neg at hc
          rw [List.getElem?_eq_none hc] at hg
          cases hg
        have hlen : (prev.eraseIdx index).length + 1 = prev.length :=
          List.length_eraseIdx_add_one hidx
        have hle : ((index : ℤ) + dir).toNat ≤ (prev.eraseIdx index).length := by
          omega
        exact (insertIdx_perm _ _ _ hle).trans (cons_eraseIdx_perm prev index removed hg)

lemma updateSlide_map_id (targetId : String) (p : SlidePatch) (s : List Slide) :
    (updateSlide targetId p s).map Slide.id = s.map Slide.id := by
  unfold updateSlide
  rw [List.map_map]
  apply List.map_congr_left
  intro x _
  by_cases h : x.id = targetId <;> simp [h, applyPatch, Function.comp]

lemma addSlide_map_id (u : String) (s : List Slide) :
    (addSlide u s).map Slide.id = s.map Slide.id ++ [u] := by
  simp [addSlide, createSlide]

lemma removeSlide_preserves (targetId : String) {s : List Slide} (hne : s ≠ [])
    (hnd : idsNodup s) :
    removeSlide targetId s ≠ [] ∧ idsNodup (removeSlide targetId s) := by
  unfold removeSlide
  by_cases hlen : s.length ≤ 1
  · simp only [hlen, if_true]
    exact ⟨hne, hnd⟩
  · simp only [hlen, if_false]
    constructor
    · push_neg at hlen
      obtain ⟨a, t, rfl⟩ := List.exists_cons_of_ne_nil hne
      cases t with
      | nil => simp at hlen
      | cons b t2 =>
        have hab : a.id ≠ b.id := by
          simp only [idsNodup, List.map_cons, List.nodup_cons, List.mem_cons] at hnd
          exact fun hc => hnd.1 (Or.inl hc)
        intro hc
        rw [List.filter_eq_nil_iff] at hc
        have ha := hc a (by simp)
        have hb := hc b (by simp)
        simp only [decide_not, Bool.not_eq_true', decide_eq_false_iff_not, not_not] at ha hb
        exact hab (ha.trans hb.symm)
    · have hsub := (List.filter_sublist (l := s)
        (p := fun sl => decide (sl.id ≠ targetId))).map Slide.id
      exact List.Nodup.sublist hsub hnd

lemma applyOp_preserves (op : SlideOp) (s : List Slide) (hne : s ≠ [])
    (hnd : idsNodup s) (hf : opFresh op s = true) :
    applyOp op s ≠ [] ∧ idsNodup (applyOp op s) := by
  cases op with
  | add u =>
    have hf' : u ∉ s.map Slide.id := by
      simpa [opFresh] using hf
    have hnd' : (s.map Slide.id).Nodup := hnd
    refine ⟨by simp [applyOp, addSlide], ?_⟩
    show (List.map Slide.id (addSlide u s)).Nodup
    rw [addSlide_map_id]
    simp [List.nodup_append, hnd', hf']
  | addFallback =>
    have hf' : fallbackId s.length ∉ s.map Slide.id := by
      simpa [opFresh] using hf
    have hnd' : (s.map Slide.id).Nodup := hnd
    refine ⟨by simp [applyOp, addSlide], ?_⟩
    show (List.map Slide.id (addSlide (fallbackId s.length) s)).Nodup
    rw [addSlide_map_id]
    simp [List.nodup_append, hnd', hf']
  | update i p =>
    refine ⟨?_, ?_⟩
    · intro hc
      have := updateSlide_map_id i p s
      rw [show applyOp (SlideOp.update i p) s = updateSlide i p s from rfl] at hc
      rw [hc] at this
      exact hne (by simpa using this.symm)
    · show idsNodup (updateSlide i p s)
      simp only [idsNodup, updateSlide_map_id]
      exact hnd
  | move i d =>
    have hperm := moveSlide_perm i d s
    refine ⟨?_, ?_⟩
    · intro hc
      rw [show applyOp (SlideOp.move i d) s = moveSlide i d s from rfl] at hc
      rw [hc] at hperm
      exact hne hperm.nil_eq.symm
    · show idsNodup (moveSlide i d s)
      exact ((hperm.map Slide.id).nodup_iff).mpr hnd
  | remove i =>
    exact removeSlide_preserves i hne hnd

lemma applyOps_preserves (ops : List SlideOp) (s : List Slide) (hne : s ≠ [])
    (hnd : idsNodup s) (hf : freshTrace ops s = true) :
    applyOps ops s ≠ [] ∧ idsNodup (applyOps ops s) := by
  induction ops generalizing s with
  | nil =>
    simpa [applyOps] using ⟨hne, hnd⟩
  | cons op rest ih =>
    simp only [freshTrace, Bool.and_eq_true] at hf
    have h1 := applyOp_preserves op s hne hnd hf.1
    have h2 := ih (applyOp op s) h1.1 h1.2 hf.2
    simpa [applyOps, List.foldl_cons] using h2

/-! ### Claim theorems C10 -/

/-- C10 counterexample: with the fallback id scheme (no `crypto.randomUUID`),
the reachable sequence remove slide-0, add (which recreates the id slide-1,
now a duplicate), remove slide-1 empties the slide list, starting from the
non-empty initial list. -/
theorem removeSlide_empties_counterexample :
    initialSlidesFallback ≠ [] ∧
    applyOps [SlideOp.remove (fallbackId 0), SlideOp.addFallback,
      SlideOp.remove (fallbackId 1)] initialSlidesFallback = [] := by
  constructor
  · simp [initialSlidesFallback]
  · decide

/-- C10 amended: `removeSlide` returns any list of length at most 1 unchanged
regardless of the id, and on longer lists removes exactly the slides with the
given id; consequently, as long as all slide ids are pairwise distinct and
every added slide's id is fresh — which `crypto.randomUUID` guarantees, but
the fallback id scheme does not — the slide list stays non-empty under every
sequence of add, update, move and remove operations. -/
theorem removeSlide_amended :
    (∀ (targetId : String) (s : List Slide), s.length ≤ 1 →
      removeSlide targetId s = s) ∧
    (∀ (targetId : String) (s : List Slide), 1 < s.length →
      removeSlide targetId s = s.filter (fun sl => sl.id ≠ targetId)) ∧
    (∀ (ops : List SlideOp) (s : List Slide), s ≠ [] → idsNodup s →
      freshTrace ops s = true → applyOps ops s ≠ []) := by
  refine ⟨?_, ?_, ?_⟩
  · intro targetId s h
    simp [removeSlide, h]
  · intro targetId s h
    have h1 : ¬ (s.length ≤ 1) := by omega
    simp [removeSlide, h1]
  · intro ops s h1 h2 h3
    exact (applyOps_preserves ops s h1 h2 h3).1

/-- Witness for the amended C10: a remove against the initial fallback list
(whose two ids are distinct) leaves it non-empty. -/
theorem removeSlide_amended_witness :
    applyOps [SlideOp.remove (fallbackId 0)] initialSlidesFallback ≠ [] := by
  refine removeSlide_amended.2.2 [SlideOp.remove (fallbackId 0)] initialSlidesFallback
    (by simp [initialSlidesFallback])
    (show (List.map Slide.id initialSlidesFallback).Nodup by decide) (by decide)

end Storyboard
